import Mathlib

/-!
Shallow embedding of the `line` voice-agent runtime core and proofs about it.

The definitions below translate the Python sources:
  * src/line/events.py           — typed event variants
  * src/line/nodes/reasoning.py  — ReasoningNode: add_event, generate,
                                   _build_conversation_context, clear_context
  * src/line/nodes/conversation_context.py — ConversationContext
  * src/line/harness.py          — ConversationHarness: _send, end_call,
                                   transfer_call, map_to_events, cleanup
  * src/line/harness_types.py    — InputMessage / OutputMessage variants
  * src/line/voice_agent_app.py  — VoiceAgentApp.websocket_endpoint
-/

namespace Line

/-- JSON-like values, modelling the arbitrary payloads (`object`, `Any`)
carried by pydantic models such as `CustomInput.metadata`. -/
inductive JsonValue
  | str (s : String)
  | num (n : Int)
  | bool (b : Bool)
  | null
  deriving DecidableEq

/-- Conversation events, from src/line/events.py.  Each constructor carries
exactly the fields the core operates on.  `agentResponse` carries both
`content` and `chunk_type` (defaulting to "text" in the source). -/
inductive Ev
  | agentResponse (content : String) (chunkType : String)
  | agentSpeechSent (content : String)
  | userTranscriptionReceived (content : String)
  | toolCall (toolName : String)
  | toolResult (toolName : String) (error : Option String)
  | agentGenerationComplete
  | userStartedSpeaking
  | userStoppedSpeaking
  | agentStartedSpeaking
  | agentStoppedSpeaking
  | dtmfInputEvent (button : String)
  | customReceived (metadata : List (String × JsonValue))
  | userUnknownInputReceived (inputData : String)
  deriving DecidableEq

/-- The merge step of `ReasoningNode.add_event` (src/line/nodes/reasoning.py,
lines 198–206): the loop over `mergeable_events = (AgentResponse,
AgentSpeechSent, UserTranscriptionReceived)` merges the incoming event with
the last stored one when both are instances of the same mergeable class,
rebuilding the event from `content` alone (so a merged `AgentResponse` gets
the default `chunk_type = "text"`).  Returns `none` when no merge applies. -/
def mergeSameKind : Ev → Ev → Option Ev
  | .agentResponse c₁ _, .agentResponse c₂ _ => some (.agentResponse (c₁ ++ c₂) "text")
  | .agentSpeechSent c₁, .agentSpeechSent c₂ => some (.agentSpeechSent (c₁ ++ c₂))
  | .userTranscriptionReceived c₁, .userTranscriptionReceived c₂ =>
      some (.userTranscriptionReceived (c₁ ++ c₂))
  | _, _ => none

/-- `ReasoningNode.add_event` (src/line/nodes/reasoning.py, lines 179–208):
append to an empty history; otherwise merge with the last entry when the
incoming event and the last entry are of the same mergeable kind, replacing
the last entry, and append in every other case. -/
def addEvent (events : List Ev) (e : Ev) : List Ev :=
  match events.getLast? with
  | none => [e]
  | some l =>
    match mergeSameKind l e with
    | some m => events.dropLast ++ [m]
    | none => events ++ [e]

/-- The three mergeable kinds named in `add_event`. -/
inductive MKind
  | ar
  | ass
  | utr
  deriving DecidableEq

/-- Classify an event as mergeable (returning its kind) or not. -/
def mergeableKind? : Ev → Option MKind
  | .agentResponse _ _ => some .ar
  | .agentSpeechSent _ => some .ass
  | .userTranscriptionReceived _ => some .utr
  | _ => none

/-- The `content` field of a mergeable event (empty for the others). -/
def mergeableContent : Ev → String
  | .agentResponse c _ => c
  | .agentSpeechSent c => c
  | .userTranscriptionReceived c => c
  | _ => ""

theorem mergeSameKind_eq_some_of_kind {l e : Ev} {k : MKind}
    (hl : mergeableKind? l = some k) (he : mergeableKind? e = some k) :
    ∃ m, mergeSameKind l e = some m ∧ mergeableKind? m = some k ∧
      mergeableContent m = mergeableContent l ++ mergeableContent e := by
  cases l <;> cases e <;>
    simp_all [mergeableKind?, mergeSameKind, mergeableContent] <;>
    exact absurd (he.trans hl.symm) (by decide)

theorem mergeSameKind_eq_none_of_ne_kind {l e : Ev}
    (h : ¬ ∃ k, mergeableKind? l = some k ∧ mergeableKind? e = some k) :
    mergeSameKind l e = none := by
  cases l <;> cases e <;> simp_all [mergeableKind?, mergeSameKind]

theorem kind_eq_of_mergeSameKind_eq_some {l e m : Ev}
    (h : mergeSameKind l e = some m) :
    mergeableKind? m = mergeableKind? l ∧
      mergeableContent m = mergeableContent l ++ mergeableContent e := by
  cases l <;> cases e <;> simp_all [mergeSameKind] <;> subst h <;>
    simp [mergeableKind?, mergeableContent]

theorem addEvent_nil (e : Ev) : addEvent [] e = [e] := rfl

theorem addEvent_concat (es : List Ev) (b e : Ev) :
    addEvent (es ++ [b]) e =
      match mergeSameKind b e with
      | some m => es ++ [m]
      | none => (es ++ [b]) ++ [e] := by
  unfold addEvent
  rw [List.getLast?_concat, List.dropLast_concat]

theorem addEvent_concat_merge {es : List Ev} {b e m : Ev}
    (h : mergeSameKind b e = some m) :
    addEvent (es ++ [b]) e = es ++ [m] := by
  rw [addEvent_concat, h]

theorem addEvent_concat_append {es : List Ev} {b e : Ev}
    (h : mergeSameKind b e = none) :
    addEvent (es ++ [b]) e = (es ++ [b]) ++ [e] := by
  rw [addEvent_concat, h]

theorem mergeSameKind_eq_none_iff {l e : Ev} :
    mergeSameKind l e = none ↔
      ¬ ∃ k, mergeableKind? l = some k ∧ mergeableKind? e = some k := by
  constructor
  · rintro hn ⟨k, hl, he⟩
    obtain ⟨m, hm, -, -⟩ := mergeSameKind_eq_some_of_kind hl he
    rw [hn] at hm
    cases hm
  · exact mergeSameKind_eq_none_of_ne_kind

/-- The history invariant of I2: no two adjacent stored events are of the
same mergeable kind (equivalently, no adjacent pair can be merged). -/
def noAdjacentMergeable (es : List Ev) : Prop :=
  es.Chain' (fun a b => mergeSameKind a b = none)

theorem noAdjacentMergeable_addEvent (es : List Ev) (e : Ev)
    (h : noAdjacentMergeable es) : noAdjacentMergeable (addEvent es e) := by
  rcases es.eq_nil_or_concat with rfl | ⟨L, b, rfl⟩
  · simp [addEvent_nil, noAdjacentMergeable]
  · simp only [List.concat_eq_append] at h ⊢
    rcases hm : mergeSameKind b e with _ | m
    · rw [addEvent_concat_append hm]
      unfold noAdjacentMergeable at h ⊢
      rw [List.chain'_append]
      refine ⟨h, List.chain'_singleton e, ?_⟩
      intro x hx y hy
      rw [List.getLast?_concat, Option.mem_def, Option.some_inj] at hx
      simp only [List.head?_cons, Option.mem_def, Option.some_inj] at hy
      subst hx
      subst hy
      exact hm
    · rw [addEvent_concat_merge hm]
      unfold noAdjacentMergeable at h ⊢
      rw [List.chain'_append] at h ⊢
      obtain ⟨hL, -, hlast⟩ := h
      refine ⟨hL, List.chain'_singleton m, ?_⟩
      intro x hx y hy
      simp only [List.head?_cons, Option.mem_def, Option.some_inj] at hy
      have hxb : mergeSameKind x b = none := hlast x hx b (by simp)
      have hbm := (kind_eq_of_mergeSameKind_eq_some hm).1
      rw [mergeSameKind_eq_none_iff] at hxb
      rw [← hy, mergeSameKind_eq_none_iff]
      rintro ⟨k, hxk, hmk⟩
      exact hxb ⟨k, hxk, by rw [← hbm]; exact hmk⟩

theorem noAdjacentMergeable_foldl (msgs : List Ev) :
    ∀ es, noAdjacentMergeable es →
      noAdjacentMergeable (List.foldl addEvent es msgs) := by
  induction msgs with
  | nil => exact fun es h => h
  | cons m ms ih => exact fun es h => ih _ (noAdjacentMergeable_addEvent es m h)

/-- Ordered concatenation of the contents of a run of events. -/
def concatContents (es : List Ev) : String :=
  es.foldr (fun e acc => mergeableContent e ++ acc) ""

theorem foldl_addEvent_sameKind_run (run : List Ev) :
    ∀ (h : List Ev) (entry : Ev) (k : MKind),
      mergeableKind? entry = some k →
      (∀ e ∈ run, mergeableKind? e = some k) →
      ∃ e', List.foldl addEvent (h ++ [entry]) run = h ++ [e'] ∧
        mergeableKind? e' = some k ∧
        mergeableContent e' = mergeableContent entry ++ concatContents run := by
  induction run with
  | nil =>
    intro h entry k hk _
    exact ⟨entry, by simp, hk, (String.append_empty _).symm⟩
  | cons r rs ih =>
    intro h entry k hk hall
    have hr : mergeableKind? r = some k := hall r (by simp)
    obtain ⟨m, hm, hmk, hmc⟩ := mergeSameKind_eq_some_of_kind hk hr
    obtain ⟨e', he₁, he₂, he₃⟩ :=
      ih h m k hmk (fun e he => hall e (List.mem_cons_of_mem r he))
    refine ⟨e', ?_, he₂, ?_⟩
    · rw [List.foldl_cons, addEvent_concat_merge hm]
      exact he₁
    · rw [he₃, hmc]
      exact String.append_assoc _ _ _

/-- C1: `add_event` merges an incoming event with the last stored event when
both are of the same mergeable kind (replacing the last entry by one event of
that kind whose content is the concatenation), appends otherwise; hence after
any sequence of `add_event` calls starting from the empty history no two
adjacent stored events are of the same mergeable kind, and a consecutive run
of same-kind mergeable events appended after a history not ending in that
kind is stored as exactly one entry whose content is the ordered
concatenation of the run's contents. -/
theorem c1_add_event_merge_invariant :
    (∀ (es : List Ev) (l e : Ev) (k : MKind), es.getLast? = some l →
        mergeableKind? l = some k → mergeableKind? e = some k →
        ∃ m, addEvent es e = es.dropLast ++ [m] ∧ mergeableKind? m = some k ∧
          mergeableContent m = mergeableContent l ++ mergeableContent e) ∧
    (∀ (es : List Ev) (l e : Ev), es.getLast? = some l →
        (¬ ∃ k, mergeableKind? l = some k ∧ mergeableKind? e = some k) →
        addEvent es e = es ++ [e]) ∧
    (∀ msgs : List Ev, noAdjacentMergeable (List.foldl addEvent [] msgs)) ∧
    (∀ (h run : List Ev) (k : MKind), run ≠ [] →
        (∀ e ∈ run, mergeableKind? e = some k) →
        (∀ l, h.getLast? = some l → mergeableKind? l ≠ some k) →
        ∃ e', List.foldl addEvent h run = h ++ [e'] ∧
          mergeableKind? e' = some k ∧
          mergeableContent e' = concatContents run) := by
  refine ⟨?_, ?_, ?_, ?_⟩
  · intro es l e k hlast hl he
    rcases es.eq_nil_or_concat with rfl | ⟨L, b, rfl⟩
    · cases hlast
    · simp only [List.concat_eq_append] at hlast ⊢
      rw [List.getLast?_concat, Option.some_inj] at hlast
      subst hlast
      obtain ⟨m, hm, hmk, hmc⟩ := mergeSameKind_eq_some_of_kind hl he
      exact ⟨m, by rw [addEvent_concat_merge hm, List.dropLast_concat], hmk, hmc⟩
  · intro es l e hlast hne
    rcases es.eq_nil_or_concat with rfl | ⟨L, b, rfl⟩
    · cases hlast
    · simp only [List.concat_eq_append] at hlast ⊢
      rw [List.getLast?_concat, Option.some_inj] at hlast
      subst hlast
      exact addEvent_concat_append (mergeSameKind_eq_none_of_ne_kind hne)
  · intro msgs
    exact noAdjacentMergeable_foldl msgs [] List.chain'_nil
  · intro h run k hne hall hlast
    rcases run with _ | ⟨r, rs⟩
    · exact absurd rfl hne
    have hr : mergeableKind? r = some k := hall r (List.mem_cons_self r rs)
    have hfirst : addEvent h r = h ++ [r] := by
      rcases h.eq_nil_or_concat with rfl | ⟨L, b, rfl⟩
      · exact addEvent_nil r
      · simp only [List.concat_eq_append] at hlast ⊢
        have hbk : mergeableKind? b ≠ some k :=
          hlast b (List.getLast?_concat L)
        refine addEvent_concat_append (mergeSameKind_eq_none_of_ne_kind ?_)
        rintro ⟨k', h₁, h₂⟩
        rw [hr, Option.some_inj] at h₂
        subst h₂
        exact hbk h₁
    obtain ⟨e', he₁, he₂, he₃⟩ :=
      foldl_addEvent_sameKind_run rs h r k hr
        (fun e he => hall e (List.mem_cons_of_mem r he))
    refine ⟨e', ?_, he₂, he₃⟩
    rw [List.foldl_cons, hfirst]
    exact he₁

/-- Witness for C1 at concrete inputs: a merge of two agent-speech events, a
non-merge append, the adjacency invariant on a concrete fold, and a
two-event run collapsing to one entry. -/
theorem c1_add_event_merge_invariant_witness :
    (∃ m, addEvent [Ev.userStartedSpeaking, Ev.agentSpeechSent "he"]
          (Ev.agentSpeechSent "llo")
        = [Ev.userStartedSpeaking, Ev.agentSpeechSent "he"].dropLast ++ [m] ∧
        mergeableKind? m = some MKind.ass ∧
        mergeableContent m = mergeableContent (Ev.agentSpeechSent "he") ++
          mergeableContent (Ev.agentSpeechSent "llo")) ∧
    addEvent [Ev.userStartedSpeaking] Ev.userStoppedSpeaking
      = [Ev.userStartedSpeaking] ++ [Ev.userStoppedSpeaking] ∧
    noAdjacentMergeable (List.foldl addEvent []
      [Ev.userTranscriptionReceived "a", Ev.userTranscriptionReceived "b",
        Ev.agentResponse "x" "text"]) ∧
    (∃ e', List.foldl addEvent [Ev.userStartedSpeaking]
          [Ev.agentSpeechSent "x", Ev.agentSpeechSent "y"]
        = [Ev.userStartedSpeaking] ++ [e'] ∧
        mergeableKind? e' = some MKind.ass ∧
        mergeableContent e' =
          concatContents [Ev.agentSpeechSent "x", Ev.agentSpeechSent "y"]) := by
  refine ⟨?_, ?_, ?_, ?_⟩
  · exact c1_add_event_merge_invariant.1
      [Ev.userStartedSpeaking, Ev.agentSpeechSent "he"]
      (Ev.agentSpeechSent "he") (Ev.agentSpeechSent "llo") MKind.ass rfl rfl rfl
  · exact c1_add_event_merge_invariant.2.1 [Ev.userStartedSpeaking]
      Ev.userStartedSpeaking Ev.userStoppedSpeaking rfl
      (by simp [mergeableKind?])
  · exact c1_add_event_merge_invariant.2.2.1 _
  · exact c1_add_event_merge_invariant.2.2.2 [Ev.userStartedSpeaking]
      [Ev.agentSpeechSent "x", Ev.agentSpeechSent "y"] MKind.ass
      (by simp) (by decide)
      (by
        intro l hl
        rw [List.getLast?_singleton, Option.some_inj] at hl
        subst hl
        decide)

/-- C10: when `add_event` merges two consecutive `AgentResponse` events, the
merged entry is rebuilt from `content` alone, so its `chunk_type` is the
default "text" regardless of the chunk types of the two originals. -/
theorem c10_merge_resets_chunk_type (es : List Ev) (c₁ t₁ c₂ t₂ : String) :
    addEvent (es ++ [Ev.agentResponse c₁ t₁]) (Ev.agentResponse c₂ t₂)
      = es ++ [Ev.agentResponse (c₁ ++ c₂) "text"] :=
  addEvent_concat_merge rfl

/-- State of a ReasoningNode (src/line/nodes/reasoning.py, __init__): system
prompt, max_context_length, and the ordered conversation history. -/
structure NodeState where
  systemPrompt : String
  maxContextLength : Nat
  conversationEvents : List Ev
  deriving DecidableEq

/-- `ReasoningNode.clear_context` (src/line/nodes/reasoning.py, lines
210–224): copy the history, reset the stored list to empty, return the
copy. -/
def clearContext (n : NodeState) : List Ev × NodeState :=
  (n.conversationEvents, { n with conversationEvents := [] })

/-- C7: `clear_context()` on a node with N stored events returns exactly
those N events in stored order and leaves the node's history empty (the
other node fields are untouched). -/
theorem c7_clear_context (n : NodeState) :
    (clearContext n).1 = n.conversationEvents ∧
    (clearContext n).1.length = n.conversationEvents.length ∧
    (clearContext n).2.conversationEvents = [] ∧
    (clearContext n).2.systemPrompt = n.systemPrompt ∧
    (clearContext n).2.maxContextLength = n.maxContextLength :=
  ⟨rfl, rfl, rfl, rfl, rfl⟩

/-- Metadata dict built by `_build_conversation_context`
(src/line/nodes/reasoning.py, lines 173–176): keys "max_context_length" and
"total_messages". -/
structure CtxMetadata where
  maxContextLength : Nat
  totalMessages : Nat
  deriving DecidableEq

/-- `ConversationContext` (src/line/nodes/conversation_context.py): events,
system prompt, metadata. -/
structure ConversationContext where
  events : List Ev
  systemPrompt : String
  metadata : CtxMetadata
  deriving DecidableEq

/-- Python list slice `xs[-k:]`, as used by `_build_conversation_context`:
the last `k` elements — except that for `k = 0` the bound `-0` equals `0`,
so `xs[-0:]` is the whole list. -/
def pySliceLast (xs : List Ev) (k : Nat) : List Ev :=
  if k = 0 then xs else xs.drop (xs.length - k)

/-- `ReasoningNode._build_conversation_context` (src/line/nodes/reasoning.py,
lines 154–177): `recent_messages = self.conversation_events`, sliced with
`[-max_context_length:]` when strictly longer than `max_context_length`,
packaged with the system prompt and the metadata dict.  The stored history is
not modified, so the node state is returned unchanged. -/
def buildConversationContext (n : NodeState) :
    ConversationContext × NodeState :=
  let recent :=
    if n.maxContextLength < n.conversationEvents.length then
      pySliceLast n.conversationEvents n.maxContextLength
    else n.conversationEvents
  ({ events := recent,
     systemPrompt := n.systemPrompt,
     metadata := { maxContextLength := n.maxContextLength,
                   totalMessages := n.conversationEvents.length } }, n)

/-- Counterexample to C8 as stated: with `max_context_length = 0` and one
stored event, the Python slice `[-0:]` is the whole list, so the context
holds 1 event while `min(N, max_context_length) = 0`. -/
theorem c8_counterexample :
    ((buildConversationContext
        ⟨"", 0, [Ev.userTranscriptionReceived "hi"]⟩).1.events).length = 1 ∧
      min ([Ev.userTranscriptionReceived "hi"] : List Ev).length 0 = 0 :=
  ⟨rfl, rfl⟩

/-- C8 (amended): for `max_context_length ≥ 1`, the context built for a
generation cycle holds exactly the most recent `min(N, max_context_length)`
stored events in order, the underlying node state is unchanged, and the
metadata records the full count (`total_messages = N`) and determines the
visible count (`min total_messages max_context_length`). -/
theorem c8_build_context_view (n : NodeState)
    (hpos : 1 ≤ n.maxContextLength) :
    (buildConversationContext n).2 = n ∧
    (buildConversationContext n).1.events
      = n.conversationEvents.drop
          (n.conversationEvents.length - n.maxContextLength) ∧
    (buildConversationContext n).1.events.length
      = min n.conversationEvents.length n.maxContextLength ∧
    (buildConversationContext n).1.systemPrompt = n.systemPrompt ∧
    (buildConversationContext n).1.metadata.totalMessages
      = n.conversationEvents.length ∧
    (buildConversationContext n).1.metadata.maxContextLength
      = n.maxContextLength ∧
    min (buildConversationContext n).1.metadata.totalMessages
        (buildConversationContext n).1.metadata.maxContextLength
      = (buildConversationContext n).1.events.length := by
  have hev : (buildConversationContext n).1.events
      = n.conversationEvents.drop
          (n.conversationEvents.length - n.maxContextLength) := by
    unfold buildConversationContext
    by_cases h : n.maxContextLength < n.conversationEvents.length
    · simp only [h, if_true]
      unfold pySliceLast
      rw [if_neg (by omega)]
    · simp only [h, if_false]
      have hz : n.conversationEvents.length - n.maxContextLength = 0 := by
        omega
      rw [hz, List.drop_zero]
  have hlen : (buildConversationContext n).1.events.length
      = min n.conversationEvents.length n.maxContextLength := by
    rw [hev, List.length_drop]
    omega
  exact ⟨rfl, hev, hlen, rfl, rfl, rfl, by rw [hlen]; rfl⟩

/-- Witness for C8 at a concrete node: three events, window of two. -/
theorem c8_build_context_view_witness :
    (buildConversationContext
        ⟨"sys", 2, [Ev.userTranscriptionReceived "a",
          Ev.agentResponse "b" "text", Ev.userTranscriptionReceived "c"]⟩).2
      = ⟨"sys", 2, [Ev.userTranscriptionReceived "a",
          Ev.agentResponse "b" "text", Ev.userTranscriptionReceived "c"]⟩ ∧
    (buildConversationContext
        ⟨"sys", 2, [Ev.userTranscriptionReceived "a",
          Ev.agentResponse "b" "text", Ev.userTranscriptionReceived "c"]⟩).1.events
      = [Ev.agentResponse "b" "text", Ev.userTranscriptionReceived "c"] ∧
    (buildConversationContext
        ⟨"sys", 2, [Ev.userTranscriptionReceived "a",
          Ev.agentResponse "b" "text", Ev.userTranscriptionReceived "c"]⟩).1.events.length
      = 2 ∧
    (buildConversationContext
        ⟨"sys", 2, [Ev.userTranscriptionReceived "a",
          Ev.agentResponse "b" "text", Ev.userTranscriptionReceived "c"]⟩).1.metadata.totalMessages
      = 3 := by
  obtain ⟨h₁, h₂, h₃, -, h₅, -, -⟩ := c8_build_context_view
    ⟨"sys", 2, [Ev.userTranscriptionReceived "a",
      Ev.agentResponse "b" "text", Ev.userTranscriptionReceived "c"]⟩
    (by decide)
  exact ⟨h₁, by rw [h₂]; rfl, by rw [h₃]; decide, by rw [h₅]; rfl⟩

/-- Apply `add_event` to a node's stored history. -/
def addEventN (n : NodeState) (e : Ev) : NodeState :=
  { n with conversationEvents := addEvent n.conversationEvents e }

/-- The `async for chunk in self.process_context(ctx)` loop of
`ReasoningNode.generate` (src/line/nodes/reasoning.py, lines 120–127): each
chunk is added to the history and then yielded; after the delegate's
sequence is exhausted a synthetic `AgentGenerationComplete` is yielded (and
not added to the history).  The delegate's output is modelled as the list of
chunks it yields; the result is the final node state and the yielded
sequence. -/
def generateLoop : NodeState → List Ev → NodeState × List Ev
  | n, [] => (n, [Ev.agentGenerationComplete])
  | n, c :: cs =>
    let r := generateLoop (addEventN n c) cs
    (r.1, c :: r.2)

/-- `ReasoningNode.generate` (src/line/nodes/reasoning.py, lines 81–127):
return immediately when the history is empty, otherwise run the loop over
the delegate's chunks. -/
def generate (n : NodeState) (chunks : List Ev) : NodeState × List Ev :=
  if n.conversationEvents = [] then (n, [])
  else generateLoop n chunks

theorem generateLoop_spec (chunks : List Ev) :
    ∀ n, generateLoop n chunks
      = ({ n with conversationEvents :=
             List.foldl addEvent n.conversationEvents chunks },
         chunks ++ [Ev.agentGenerationComplete]) := by
  induction chunks with
  | nil => intro n; rfl
  | cons c cs ih =>
    intro n
    simp only [generateLoop, addEventN, ih, List.foldl_cons,
      List.cons_append]

/-- C2: `generate` is a no-op on an empty history; otherwise it yields
exactly the delegate's events in order — each merged into the history via
`add_event` before being yielded — followed by a final synthetic
`AgentGenerationComplete` (which is not stored). -/
theorem c2_generate_flow (n : NodeState) (chunks : List Ev) :
    (n.conversationEvents = [] → generate n chunks = (n, [])) ∧
    (n.conversationEvents ≠ [] →
      (generate n chunks).2 = chunks ++ [Ev.agentGenerationComplete] ∧
      (generate n chunks).1.conversationEvents
        = List.foldl addEvent n.conversationEvents chunks ∧
      (generate n chunks).1.systemPrompt = n.systemPrompt ∧
      (generate n chunks).1.maxContextLength = n.maxContextLength) := by
  constructor
  · intro h
    unfold generate
    rw [if_pos h]
  · intro h
    unfold generate
    rw [if_neg h, generateLoop_spec chunks n]
    exact ⟨rfl, rfl, rfl, rfl⟩

/-- Witness for C2: the empty-history no-op and a one-chunk generation at
concrete inputs. -/
theorem c2_generate_flow_witness :
    generate ⟨"s", 100, []⟩ [Ev.agentResponse "hi" "text"]
      = (⟨"s", 100, []⟩, []) ∧
    ((generate ⟨"s", 100, [Ev.userTranscriptionReceived "q"]⟩
        [Ev.agentResponse "a" "text"]).2
      = [Ev.agentResponse "a" "text"] ++ [Ev.agentGenerationComplete] ∧
    (generate ⟨"s", 100, [Ev.userTranscriptionReceived "q"]⟩
        [Ev.agentResponse "a" "text"]).1.conversationEvents
      = List.foldl addEvent [Ev.userTranscriptionReceived "q"]
          [Ev.agentResponse "a" "text"] ∧
    (generate ⟨"s", 100, [Ev.userTranscriptionReceived "q"]⟩
        [Ev.agentResponse "a" "text"]).1.systemPrompt = "s" ∧
    (generate ⟨"s", 100, [Ev.userTranscriptionReceived "q"]⟩
        [Ev.agentResponse "a" "text"]).1.maxContextLength = 100) :=
  ⟨(c2_generate_flow ⟨"s", 100, []⟩ [Ev.agentResponse "hi" "text"]).1 rfl,
   (c2_generate_flow ⟨"s", 100, [Ev.userTranscriptionReceived "q"]⟩
      [Ev.agentResponse "a" "text"]).2 (by decide)⟩

/-- The same loop when the delegate raises after yielding its chunks: the
source has no try/except around the `async for` (src/line/nodes/reasoning.py,
lines 112–127), so the chunks yielded before the failure are merged and
forwarded, the exception then propagates out of `generate`, and no
`AgentGenerationComplete` is emitted.  The delegate is modelled as the list
of chunks it yields followed by an optional raised exception. -/
def generateExcLoop : NodeState → List Ev → Option String →
    NodeState × List Ev × Option String
  | n, [], none => (n, [Ev.agentGenerationComplete], none)
  | n, [], some err => (n, [], some err)
  | n, c :: cs, err =>
    let r := generateExcLoop (addEventN n c) cs err
    (r.1, c :: r.2.1, r.2.2)

/-- `ReasoningNode.generate` with a possibly-raising delegate. -/
def generateExc (n : NodeState) (chunks : List Ev) (err : Option String) :
    NodeState × List Ev × Option String :=
  if n.conversationEvents = [] then (n, [], none)
  else generateExcLoop n chunks err

theorem generateExcLoop_err (chunks : List Ev) :
    ∀ (n : NodeState) (e : String),
      generateExcLoop n chunks (some e)
        = ({ n with conversationEvents :=
               List.foldl addEvent n.conversationEvents chunks },
           chunks, some e) := by
  induction chunks with
  | nil => intro n e; rfl
  | cons c cs ih =>
    intro n e
    simp only [generateExcLoop, addEventN, ih, List.foldl_cons]

/-- Counterexample to C4 as stated: a delegate that raises immediately on a
node with non-empty history.  The exception propagates out of `generate`
(last component `some "boom"`) and no fallback user-facing message is
yielded (second component `[]`) — nothing is caught at the generation
boundary. -/
theorem c4_counterexample :
    generateExc ⟨"s", 100, [Ev.userTranscriptionReceived "hi"]⟩ []
        (some "boom")
      = (⟨"s", 100, [Ev.userTranscriptionReceived "hi"]⟩, [], some "boom") :=
  rfl

/-- C4 (amended): an exception raised by `process_context` is not caught in
`ReasoningNode.generate`: the chunks yielded before the failure are merged
into the history and forwarded, the exception propagates to the caller, and
neither a fallback message nor the generation-complete event is emitted by
the core. -/
theorem c4_generate_propagates (n : NodeState) (chunks : List Ev)
    (e : String) (h : n.conversationEvents ≠ []) :
    generateExc n chunks (some e)
      = ({ n with conversationEvents :=
             List.foldl addEvent n.conversationEvents chunks },
         chunks, some e) := by
  unfold generateExc
  rw [if_neg h, generateExcLoop_err chunks n e]

/-- Witness for C4 at a concrete input. -/
theorem c4_generate_propagates_witness :
    generateExc ⟨"s", 100, [Ev.userTranscriptionReceived "q"]⟩
        [Ev.agentResponse "par" "text"] (some "boom")
      = ({ systemPrompt := "s", maxContextLength := 100,
           conversationEvents :=
             List.foldl addEvent [Ev.userTranscriptionReceived "q"]
               [Ev.agentResponse "par" "text"] },
         [Ev.agentResponse "par" "text"], some "boom") :=
  c4_generate_propagates ⟨"s", 100, [Ev.userTranscriptionReceived "q"]⟩
    [Ev.agentResponse "par" "text"] "boom" (by decide)

/-- Decoded inbound messages (src/line/harness_types.py, `InputMessage`
union): the seven pydantic variants discriminated by their `type` field. -/
inductive InputMessage
  | transcription (content : String)
  | dtmf (button : String)
  | userState (value : String)
  | agentState (value : String)
  | validationError (errorMessage : String) (errorType : String)
  | agentSpeech (content : String)
  | custom (metadata : List (String × JsonValue))
  deriving DecidableEq

/-- JSON rendering of a string (quotes only; escaping of interior
characters is immaterial to the claims). -/
def jsonStr (s : String) : String := "\"" ++ s ++ "\""

def serializeJsonValue : JsonValue → String
  | .str s => jsonStr s
  | .num n => toString n
  | .bool b => if b then "true" else "false"
  | .null => "null"

def serializeKVs (l : List (String × JsonValue)) : String :=
  String.intercalate ","
    (l.map fun p => jsonStr p.1 ++ ":" ++ serializeJsonValue p.2)

/-- Model of pydantic's `model_dump_json` on an `InputMessage`, used by the
fallback branch of `map_to_events`: fields in declaration order, then the
literal `type` tag. -/
def serializeInputMessage : InputMessage → String
  | .transcription c =>
      "\x7b\"content\":" ++ jsonStr c ++ ",\"type\":\"message\"\x7d"
  | .dtmf b => "\x7b\"button\":" ++ jsonStr b ++ ",\"type\":\"dtmf\"\x7d"
  | .userState v =>
      "\x7b\"value\":" ++ jsonStr v ++ ",\"type\":\"user_state\"\x7d"
  | .agentState v =>
      "\x7b\"value\":" ++ jsonStr v ++ ",\"type\":\"agent_state\"\x7d"
  | .validationError em et =>
      "\x7b\"error_message\":" ++ jsonStr em ++ ",\"error_type\":" ++
        jsonStr et ++ ",\"type\":\"validation_error\"\x7d"
  | .agentSpeech c =>
      "\x7b\"content\":" ++ jsonStr c ++ ",\"type\":\"agent_speech\"\x7d"
  | .custom m =>
      "\x7b\"metadata\":\x7b" ++ serializeKVs m ++
        "\x7d,\"type\":\"custom\"\x7d"

/-- `ConversationHarness.map_to_events` (src/line/harness.py, lines
249–282): the `isinstance` chain over the `InputMessage` variants.  State
messages ("user_state"/"agent_state") are inspected for the values
"speaking" and "idle"; when the value is neither, control falls through the
whole chain to the trailing `return []`.  A message whose class matches no
`isinstance` arm (among the union's members, only `ValidationErrorInput`)
hits the `else` arm and becomes the catch-all `UserUnknownInputReceived`
wrapping the serialized message. -/
def mapToEvents : InputMessage → List Ev
  | .userState v =>
      if v = "speaking" then [Ev.userStartedSpeaking]
      else if v = "idle" then [Ev.userStoppedSpeaking]
      else []
  | .transcription c => [Ev.userTranscriptionReceived c]
  | .agentState v =>
      if v = "speaking" then [Ev.agentStartedSpeaking]
      else if v = "idle" then [Ev.agentStoppedSpeaking]
      else []
  | .agentSpeech c => [Ev.agentSpeechSent c]
  | .dtmf b => [Ev.dtmfInputEvent b]
  | .custom m => [Ev.customReceived m]
  | .validationError em et =>
      [Ev.userUnknownInputReceived
        (serializeInputMessage (.validationError em et))]

/-- Counterexample to C3 as stated: a `user_state` message whose value is
neither "speaking" nor "idle" falls through the state checks to the trailing
`return []`, producing no event at all — it does not reach the catch-all
`UserUnknownInputReceived` arm. -/
theorem c3_counterexample :
    mapToEvents (InputMessage.userState "mumbling") = [] :=
  rfl

/-- C3 (amended): recognized messages map to their documented events, and a
message of a class outside the `isinstance` chain (`validation_error`) maps
to the catch-all unknown-input event — but a `user_state`/`agent_state`
message carrying an unrecognized value maps to no event at all (the
fall-through `return []`), so such inbound messages are dropped. -/
theorem c3_map_to_events (v : String) :
    (∀ c, mapToEvents (.transcription c) = [Ev.userTranscriptionReceived c]) ∧
    (∀ b, mapToEvents (.dtmf b) = [Ev.dtmfInputEvent b]) ∧
    mapToEvents (.userState "speaking") = [Ev.userStartedSpeaking] ∧
    mapToEvents (.userState "idle") = [Ev.userStoppedSpeaking] ∧
    mapToEvents (.agentState "speaking") = [Ev.agentStartedSpeaking] ∧
    mapToEvents (.agentState "idle") = [Ev.agentStoppedSpeaking] ∧
    (∀ c, mapToEvents (.agentSpeech c) = [Ev.agentSpeechSent c]) ∧
    (∀ m, mapToEvents (.custom m) = [Ev.customReceived m]) ∧
    (∀ em et, mapToEvents (.validationError em et)
        = [Ev.userUnknownInputReceived
            (serializeInputMessage (.validationError em et))]) ∧
    (v ≠ "speaking" → v ≠ "idle" →
      mapToEvents (.userState v) = [] ∧ mapToEvents (.agentState v) = []) := by
  refine ⟨fun c => rfl, fun b => rfl, rfl, rfl, rfl, rfl, fun c => rfl,
    fun m => rfl, fun em et => rfl, fun h₁ h₂ => ?_⟩
  constructor <;> · simp only [mapToEvents]; rw [if_neg h₁, if_neg h₂]

/-- Witness for C3 at the concrete unrecognized value "mumbling". -/
theorem c3_map_to_events_witness :
    mapToEvents (InputMessage.userState "mumbling") = [] ∧
      mapToEvents (InputMessage.agentState "mumbling") = [] :=
  (c3_map_to_events "mumbling").2.2.2.2.2.2.2.2.2
    (by decide) (by decide)

/-- Outbound messages (src/line/harness_types.py, `OutputMessage` union);
each constructor keeps the fields the claims inspect. -/
inductive OutMsg
  | errorOut (content : String)
  | dtmfOut (button : String)
  | messageOut (content : String)
  | toolCallOut (name : String)
  | transferOut (targetPhoneNumber : String)
  | endCallOut
  | logEventOut (event : String)
  | logMetricOut (name : String)
  deriving DecidableEq

/-- State of a `ConversationHarness` (src/line/harness.py) together with its
environment: the shared shutdown flag (`shutdown_event.is_set()`), the
running flag, the inbound FIFO queue, the messages actually transmitted on
the websocket so far, and whether the websocket currently accepts sends
(`send_json` succeeding or raising). -/
structure HarnessState where
  shutdownSet : Bool
  isRunning : Bool
  inputQueue : List InputMessage
  wire : List OutMsg
  sendOk : Bool
  deriving DecidableEq

/-- `ConversationHarness._send` (src/line/harness.py, lines 133–139): the
shutdown flag is checked first — when set, nothing is transmitted and the
message is not stored anywhere; otherwise the message is sent, and a raise
from `send_json` is caught and sets the shutdown flag. -/
def send (h : HarnessState) (m : OutMsg) : HarnessState :=
  if h.shutdownSet then h
  else if h.sendOk then { h with wire := h.wire ++ [m] }
  else { h with shutdownSet := true }

/-- `ConversationHarness.end_call` (src/line/harness.py, lines 141–146):
send the end-call message.  The body performs no `shutdown_event.set()`. -/
def endCall (h : HarnessState) : HarnessState := send h .endCallOut

/-- `ConversationHarness.transfer_call` (src/line/harness.py, lines
148–162): send the transfer message, sleep `timeout_s` seconds, then set the
shutdown flag unconditionally. -/
def transferCall (h : HarnessState) (targetPhoneNumber : String)
    (timeoutS : Nat) : HarnessState :=
  let h' := send h (.transferOut targetPhoneNumber)
  { h' with shutdownSet := true }

/-- `ConversationHarness.send_error` (src/line/harness.py, lines 169–171). -/
def sendError (h : HarnessState) (content : String) : HarnessState :=
  send h (.errorOut content)

/-- One outcome observed by the read loop `_input_processor`
(src/line/harness.py, lines 99–127). -/
inductive InboundItem
  | received (m : InputMessage)
  | disconnected
  | jsonDecodeFailure

/-- One iteration of `_input_processor`: enqueue a decoded message, set the
shutdown flag on `WebSocketDisconnect`, or log-and-continue on a JSON decode
failure. -/
def inputProcessorStep (h : HarnessState) : InboundItem → HarnessState
  | .received m => { h with inputQueue := h.inputQueue ++ [m] }
  | .disconnected => { h with shutdownSet := true }
  | .jsonDecodeFailure => h

/-- `ConversationHarness.cleanup` (src/line/harness.py, lines 221–247): set
the shutdown flag, stop running, cancel the read task, and drain the input
queue without processing the remaining entries. -/
def cleanup (h : HarnessState) : HarnessState :=
  { h with shutdownSet := true, isRunning := false, inputQueue := [] }

/-- Evaluation of C5 on the code: the shutdown flag is checked before every
outbound send (a set flag suppresses the send entirely, nothing is queued or
transmitted), transport disconnect and the transfer timeout set the flag —
but `end_call` on a live harness sends the end-call message and leaves the
shutdown flag UNSET, contradicting both the claim and `end_call`'s own
docstring ("Send end_call message and signal shutdown"). -/
theorem c5_shutdown_flag_behavior :
    (∀ (r w : Bool) (q : List InputMessage) (wi : List OutMsg) (m : OutMsg),
        send ⟨true, r, q, wi, w⟩ m = ⟨true, r, q, wi, w⟩) ∧
    (∀ h : HarnessState,
        (inputProcessorStep h .disconnected).shutdownSet = true) ∧
    (∀ (h : HarnessState) (t : String) (s : Nat),
        (transferCall h t s).shutdownSet = true) ∧
    endCall ⟨false, true, [], [], true⟩
      = ⟨false, true, [], [OutMsg.endCallOut], true⟩ :=
  ⟨fun _ _ _ _ _ => rfl, fun _ => rfl, fun _ _ _ => rfl, rfl⟩

/-- Outcome of `await self.call_handler(system, call_request)` inside
`VoiceAgentApp.websocket_endpoint` (src/line/voice_agent_app.py, lines
145–158). -/
inductive HandlerOutcome
  | completed
  | disconnected
  | errorRaised (message : String)

/-- The fallback text sent by the endpoint's generic exception arm. -/
def fallbackErrorText : String :=
  "System has encountered an error, please try again later."

/-- `VoiceAgentApp.websocket_endpoint` after the call handler finishes
(src/line/voice_agent_app.py, lines 145–158): a `WebSocketDisconnect` is
only logged; any other exception triggers `send_error` then `end_call`; the
`finally` block runs `system.cleanup()` in every case. -/
def websocketEndpoint (h : HarnessState) : HandlerOutcome → HarnessState
  | .completed => cleanup h
  | .disconnected => cleanup h
  | .errorRaised _ => cleanup (endCall (sendError h fallbackErrorText))

/-- C9: whatever the handler outcome, cleanup always runs (shutdown flag
set, running flag cleared, input queue drained), and on an unhandled
exception other than a disconnect a live harness transmits the error message
followed by the end-call message before cleanup. -/
theorem c9_endpoint_error_path (h : HarnessState) (o : HandlerOutcome) :
    ((websocketEndpoint h o).shutdownSet = true ∧
     (websocketEndpoint h o).isRunning = false ∧
     (websocketEndpoint h o).inputQueue = []) ∧
    (∀ msg, o = .errorRaised msg → h.shutdownSet = false → h.sendOk = true →
      (websocketEndpoint h o).wire
        = h.wire ++ [OutMsg.errorOut fallbackErrorText, OutMsg.endCallOut]) ∧
    (o = .completed ∨ o = .disconnected →
      (websocketEndpoint h o).wire = h.wire) := by
  refine ⟨?_, ?_, ?_⟩
  · cases o <;> exact ⟨rfl, rfl, rfl⟩
  · rintro msg rfl hflag hok
    simp only [websocketEndpoint, cleanup, endCall, sendError, send, hflag,
      hok, Bool.false_eq_true, if_false, if_true, List.append_assoc,
      List.singleton_append]
  · rintro (rfl | rfl) <;> rfl

/-- Witness for C9: the error outcome on a live harness, and the completed
outcome. -/
theorem c9_endpoint_error_path_witness :
    ((websocketEndpoint ⟨false, true, [], [], true⟩
        (HandlerOutcome.errorRaised "x")).shutdownSet = true ∧
     (websocketEndpoint ⟨false, true, [], [], true⟩
        (HandlerOutcome.errorRaised "x")).isRunning = false ∧
     (websocketEndpoint ⟨false, true, [], [], true⟩
        (HandlerOutcome.errorRaised "x")).inputQueue = []) ∧
    (websocketEndpoint ⟨false, true, [], [], true⟩
        (HandlerOutcome.errorRaised "x")).wire
      = [] ++ [OutMsg.errorOut fallbackErrorText, OutMsg.endCallOut] ∧
    (websocketEndpoint ⟨false, true, [], [], true⟩
        HandlerOutcome.completed).wire = [] := by
  refine ⟨?_, ?_, ?_⟩
  · exact (c9_endpoint_error_path ⟨false, true, [], [], true⟩
      (HandlerOutcome.errorRaised "x")).1
  · exact (c9_endpoint_error_path ⟨false, true, [], [], true⟩
      (HandlerOutcome.errorRaised "x")).2.1 "x" rfl rfl rfl
  · exact (c9_endpoint_error_path ⟨false, true, [], [], true⟩
      HandlerOutcome.completed).2.2 (Or.inl rfl)

/-- Modelled from the spec: the bridge routing layer's stream stage with a
declared interrupt is not under src/ (line/bridge.py and line/bus.py are
missing; only src/line/nodes/reasoning.py and the spec describe it).
Following spec §4.2 (`interrupt_on`/`stream`) and §5: the stream task yields
events one at a time, each merged into the node's history at a suspension
point; the declared interrupt event arrives after `k` yields, and at the
next suspension point the task is cancelled and the interrupt handler runs
exactly once; a stream that finishes before the interrupt arrives is never
cancelled and the handler does not run.  The result records the final
history, the events the stream produced, and how many times the handler
ran. -/
def runStreamWithInterrupt : List Ev → List Ev → Nat → List Ev × List Ev × Nat
  | hist, _, 0 => (hist, [], 1)
  | hist, [], _ + 1 => (hist, [], 0)
  | hist, c :: cs, k + 1 =>
    let r := runStreamWithInterrupt (addEvent hist c) cs k
    (r.1, c :: r.2.1, r.2.2)

/-- C6: if the declared interrupt arrives after `k` yields and before the
stream completes (`k < chunks.length`), the interrupt handler runs exactly
once, the stream yields exactly its first `k` events and nothing after the
interrupt, and those events remain merged into the node's history with no
retroactive rollback. -/
theorem c6_interrupt_cancels_stream (hist chunks : List Ev) (k : Nat)
    (hk : k < chunks.length) :
    runStreamWithInterrupt hist chunks k
      = (List.foldl addEvent hist (chunks.take k), chunks.take k, 1) := by
  induction chunks generalizing hist k with
  | nil => exact absurd hk (Nat.not_lt_zero k)
  | cons c cs ih =>
    cases k with
    | zero => rfl
    | succ k =>
      have hk' : k < cs.length := Nat.lt_of_succ_lt_succ hk
      simp only [runStreamWithInterrupt, ih (addEvent hist c) k hk',
        List.take_succ_cons, List.foldl_cons]

/-- Witness for C6: a two-event stream interrupted after one yield. -/
theorem c6_interrupt_cancels_stream_witness :
    runStreamWithInterrupt [] [Ev.agentResponse "Hel" "text",
        Ev.agentResponse "lo" "text"] 1
      = (List.foldl addEvent []
          ([Ev.agentResponse "Hel" "text",
            Ev.agentResponse "lo" "text"].take 1),
         [Ev.agentResponse "Hel" "text",
           Ev.agentResponse "lo" "text"].take 1, 1) :=
  c6_interrupt_cancels_stream []
    [Ev.agentResponse "Hel" "text", Ev.agentResponse "lo" "text"] 1
    (by decide)

end Line
